import Mathlib

/-!
Verification development for the repost coordination core of ReddigramReposter.

The definitions below are a shallow embedding of the Python source:
  - src/reddit/subreddit_browser.py (SubredditBrowser: browse loop, retention
    cleanup, media extraction, delivery correlation),
  - src/utils.py (DownloadManager.download_media),
  - src/telegram/utils.py (TelegramHelper),
  - src/stats.py (StatCollector).

Modelling conventions: timestamps are integers (Python float seconds); redis
keyed storage is modelled as explicit finite state (lists and functions into
Option); Python exceptions are a PyErr error value threaded through Except or
an Option PyErr component; the filetype sniffing library and the network are
parameters (functions), since they are external to the repository; Python
float counters are modelled as rationals, so additions are exact; calendar
dates are modelled as integer day numbers rendered with toString.
-/

/-- Python exceptions that the embedded code can raise. -/
inductive PyErr where
  | indexError
  | fileNotFound
  | typeError
  deriving DecidableEq, Repr

/-- Model of str.startswith, on the underlying character list. -/
def str_startswith (s pre : String) : Bool :=
  pre.data.isPrefixOf s.data

/-- Model of str.endswith, on the underlying character list. -/
def str_endswith (s suf : String) : Bool :=
  suf.data.isSuffixOf s.data

/-- Search, from position k downwards, for the largest position of at least 1
at which the pattern list occurs in rem.  This realises the greedy semantics
of the regexes of the form caret-anchored-pre(.+)pat used by the source:
the dot-plus group must capture at least one character before the literal
pattern, and greediness picks the last occurrence. -/
def lastOccFrom (rem pat : List Char) : Nat → Option Nat
  | 0 => none
  | k + 1 => if pat.isPrefixOf (rem.drop (k + 1)) then some (k + 1) else lastOccFrom rem pat k

/-- Model of re.findall applied to a pattern of the shape
caret pre (.+) literal-suffix, returning the single group-1 capture when the
pattern matches and none when re.findall would return the empty list
(in which case the source, which indexes the result with [0], raises
IndexError). -/
def findall_cap1 (pre suf s : String) : Option String :=
  if pre.data.isPrefixOf s.data then
    let rem := s.data.drop pre.data.length
    match lastOccFrom rem suf.data rem.length with
    | some k => some (String.mk (rem.take k))
    | none => none
  else none

/-- Character class backslash-w of the regex in the i.redd.it branch. -/
def isWordChar (c : Char) : Bool :=
  c.isAlphanum || c = '_'

/-- Search, from position k downwards, for the largest position of at least 1
at which a dot followed by a word character occurs: greedy match of
caret pre (.+) dot (word-plus). -/
def lastDotWordFrom (rem : List Char) : Nat → Option Nat
  | 0 => none
  | k + 1 =>
    match rem.drop (k + 1) with
    | '.' :: c :: _ => if isWordChar c then some (k + 1) else lastDotWordFrom rem k
    | _ => lastDotWordFrom rem k

/-- Model of re.findall for the i.redd.it pattern
caret pre (.+) dot (word-plus): returns the group-1 capture (the media id,
which is all the source keeps via [0][0]) or none when re.findall returns
the empty list. -/
def findall_cap2 (pre s : String) : Option String :=
  if pre.data.isPrefixOf s.data then
    let rem := s.data.drop pre.data.length
    match lastDotWordFrom rem rem.length with
    | some k => some (String.mk (rem.take k))
    | none => none
  else none

/-- Model of re.findall for the v.redd.it pattern caret pre (.+): the capture
is the whole remainder when it is nonempty. -/
def findall_rest (pre s : String) : Option String :=
  if pre.data.isPrefixOf s.data then
    let rem := s.data.drop pre.data.length
    if rem.isEmpty then none else some (String.mk rem)
  else none

/-- The reddit_video metadata blob of a v.redd.it submission
(submission.media when present and carrying a reddit_video entry). -/
structure RedditVideo where
  is_gif : Bool
  fallback_url : String
  deriving DecidableEq, Repr

/-- Resolution part of SubredditBrowser._extract_media
(src/reddit/subreddit_browser.py lines 70-118): the ordered provider match
computing (download_url, file_path base, default_ext) from the submission
url and media metadata, before the actual download.  submission.media is
modelled as Option RedditVideo, none covering an absent map, an empty map
and a map without the reddit_video key.  A branch whose re.findall comes
back empty raises IndexError through the indexing with [0]. -/
def resolve_media (media : Option RedditVideo) (tmp_dir url : String) :
    Except PyErr (Option (String × String × String)) :=
  if str_startswith url "https://i.imgur.com" then
    if str_endswith url "gifv" then
      match findall_cap1 "https://i.imgur.com/" ".gifv" url with
      | some media_id =>
        .ok (some ("https://imgur.com/download/" ++ media_id, tmp_dir ++ "/" ++ media_id, "gif"))
      | none => .error .indexError
    else if str_endswith url "gif" then
      match findall_cap1 "https://i.imgur.com/" ".gif" url with
      | some media_id =>
        .ok (some ("https://i.imgur.com/" ++ media_id ++ ".gif", tmp_dir ++ "/" ++ media_id, "gif"))
      | none => .error .indexError
    else if str_endswith url "jpg" then
      match findall_cap1 "https://i.imgur.com/" ".jpg" url with
      | some media_id =>
        .ok (some ("https://i.imgur.com/" ++ media_id ++ ".jpg", tmp_dir ++ "/" ++ media_id, "jpg"))
      | none => .error .indexError
    else if str_endswith url "png" then
      match findall_cap1 "https://i.imgur.com/" ".png" url with
      | some media_id =>
        .ok (some ("https://i.imgur.com/" ++ media_id ++ ".png", tmp_dir ++ "/" ++ media_id, "png"))
      | none => .error .indexError
    else .ok none
  else if str_startswith url "https://v.redd.it/" then
    match media with
    | some rv =>
      if rv.is_gif then
        match findall_rest "https://v.redd.it/" url with
        | some media_id => .ok (some (rv.fallback_url, tmp_dir ++ "/" ++ media_id, "mp4"))
        | none => .error .indexError
      else .ok none
    | none => .ok none
  else if str_startswith url "https://i.redd.it/" then
    match findall_cap2 "https://i.redd.it/" url with
    | some media_id => .ok (some (url, tmp_dir ++ "/" ++ media_id, "jpg"))
    | none => .error .indexError
  else if str_startswith url "https://gfycat.com/" then
    if str_endswith url "gif" then
      match findall_cap1 "https://gfycat.com/" ".gif" url with
      | some media_id =>
        .ok (some ("https://giant.gfycat.com/" ++ media_id ++ ".gif", tmp_dir ++ "/" ++ media_id, "gif"))
      | none => .error .indexError
    else .ok none
  else .ok none

example : resolve_media none "tmp" "https://i.imgur.com/xyz.gif" =
    .ok (some ("https://i.imgur.com/xyz.gif", "tmp/xyz", "gif")) := rfl
example : resolve_media none "tmp" "https://i.imgur.com/gif" = .error .indexError := rfl
example : resolve_media none "tmp" "https://i.redd.it/abc.png" =
    .ok (some ("https://i.redd.it/abc.png", "tmp/abc", "jpg")) := rfl
example : resolve_media none "tmp" "https://i.redd.it/abc" = .error .indexError := rfl
example : resolve_media none "tmp" "https://example.com/a.png" = .ok none := rfl
example : resolve_media none "tmp" "https://i.imgur.com/a.gifv" =
    .ok (some ("https://imgur.com/download/a", "tmp/a", "gif")) := rfl

/-- File system contents: a map from path to the byte list stored there
(none when no file exists at the path). -/
def FS : Type := String → Option (List Nat)

/-- The wget call of DownloadManager.download_media (src/utils.py line 21):
wget -O always creates the output file; on a failed or empty fetch the file
is created with zero bytes.  The network is a parameter mapping a url to the
fetched bytes, none meaning a failed fetch. -/
def wget_fetch (net : String → Option (List Nat)) (fs : FS) (url path : String) : FS :=
  fun p => if p = path then some ((net url).getD []) else fs p

/-- Model of os.rename: the contents at the old path move to the new path. -/
def os_rename (fs : FS) (old new : String) : FS :=
  fun p => if p = new then fs old else if p = old then none else fs p

/-- DownloadManager.download_media (src/utils.py lines 10-27): fetch with
wget, sniff the content type (the filetype library is the parameter sniff,
returning none when detection is inconclusive, in particular on an empty
file), rename to file_path dot extension and return the new name.  The wget
result is never checked: the function returns the renamed path even when the
fetch failed and produced a zero byte file. -/
def download_media (sniff : List Nat → Option String) (net : String → Option (List Nat))
    (fs : FS) (download_url file_path default_extension : String) : FS × String :=
  let fs1 := wget_fetch net fs download_url file_path
  let kind := sniff ((net download_url).getD [])
  let new_name :=
    match kind with
    | some k => file_path ++ "." ++ k
    | none => file_path ++ "." ++ default_extension
  (os_rename fs1 file_path new_name, new_name)

/-- Retention store state for one (feed, channel) namespace: the posted set
(a redis set, modelled as a duplicate free list) and the post_time hash. -/
structure RState where
  posted : List String
  postTime : String → Option Int

/-- Redis commands issued by the browse loop against the retention keys. -/
inductive RCmd where
  | sadd (sid : String)
  | srem (sid : String)
  | hset (sid : String) (t : Int)
  | hdel (sid : String)

/-- Effect of one redis command on the retention state. -/
def execCmd (s : RState) : RCmd → RState
  | .sadd sid =>
    { s with posted := if sid ∈ s.posted then s.posted else sid :: s.posted }
  | .srem sid => { s with posted := s.posted.erase sid }
  | .hset sid t => { s with postTime := fun k => if k = sid then some t else s.postTime k }
  | .hdel sid => { s with postTime := fun k => if k = sid then none else s.postTime k }

/-- Sequential execution of a command list. -/
def execCmds (s : RState) (cmds : List RCmd) : RState :=
  cmds.foldl execCmd s

/-- The two redis commands issued to mark a submission posted
(src/reddit/subreddit_browser.py lines 42-43): sadd on the posted set, then
hset on the post_time hash. -/
def mark_posted_cmds (sid : String) (t : Int) : List RCmd :=
  [.sadd sid, .hset sid t]

/-- Marking a submission posted, as a whole operation. -/
def mark_posted (s : RState) (sid : String) (t : Int) : RState :=
  execCmds s (mark_posted_cmds sid t)

/-- First loop of SubredditBrowser._do_post_storage_cleanup (lines 60-64):
walk the posted set and collect into to_del every id whose recorded time is
strictly older than cleanup_delay.  A member without a post_time entry makes
float(None) raise TypeError. -/
def collect_to_del (postTime : String → Option Int) (now cleanup_delay : Int) :
    List String → Except PyErr (List String)
  | [] => .ok []
  | sid :: rest =>
    match postTime sid with
    | none => .error .typeError
    | some t =>
      match collect_to_del postTime now cleanup_delay rest with
      | .error e => .error e
      | .ok to_del => .ok (if now - t > cleanup_delay then sid :: to_del else to_del)

/-- Second loop of SubredditBrowser._do_post_storage_cleanup (lines 66-68):
for each collected id, srem from the posted set then hdel from the hash. -/
def sweep_cmds (to_del : List String) : List RCmd :=
  to_del.flatMap (fun sid => [.srem sid, .hdel sid])

/-- SubredditBrowser._do_post_storage_cleanup (lines 59-68), the sweep of the
retention store: collect the expired ids, then remove each from the set and
the hash.  The source reads time.time() once per member; the claims quantify
over a single current time now, which is how it is modelled here. -/
def sweep (now cleanup_delay : Int) (s : RState) : Except PyErr RState :=
  match collect_to_del s.postTime now cleanup_delay s.posted with
  | .error e => .error e
  | .ok to_del => .ok (execCmds s (sweep_cmds to_del))

/-- Retention invariant: every member of the posted set has a post_time entry. -/
def RInv (s : RState) : Prop :=
  ∀ sid, sid ∈ s.posted → (s.postTime sid).isSome

/-- TelegramMediaType (src/telegram/telegram_wrapper.py lines 47-54), in
enum declaration order. -/
inductive MediaType where
  | image
  | video
  | animation
  | document
  | audio
  deriving DecidableEq, Repr

/-- Lowercased enum member name, as used for redis hash keys. -/
def MediaType.lowerName : MediaType → String
  | .image => "image"
  | .video => "video"
  | .animation => "animation"
  | .document => "document"
  | .audio => "audio"

/-- Position of the last dot in a character list, if any (os.path.splitext
for the paths at hand: the extension starts at the last dot). -/
def lastDotIndex (l : List Char) : Nat → Option Nat
  | 0 => if l.head? = some '.' then some 0 else none
  | k + 1 =>
    if (l.drop (k + 1)).head? = some '.' then some (k + 1) else lastDotIndex l k

/-- Extension of a path without the leading dot, empty when there is no dot:
os.path.splitext(file_path)[1][1:] as used in TelegramHelper. -/
def splitext_ext (p : String) : String :=
  match lastDotIndex p.data p.data.length with
  | some k => String.mk (p.data.drop (k + 1))
  | none => ""

/-- TelegramHelper.determine_media_type (src/telegram/utils.py lines 8-25):
media type from the file extension, DOCUMENT when not recognized. -/
def determine_media_type (file_path : String) : MediaType :=
  let ext := splitext_ext file_path
  if ext = "gif" then .animation
  else if ext = "jpg" ∨ ext = "png" then .image
  else if ext = "mp4" ∨ ext = "avi" ∨ ext = "webm" then .video
  else .document

example : determine_media_type "tmp/xyz.gif" = .animation := rfl
example : determine_media_type "tmp/xyz.jpg" = .image := rfl
example : determine_media_type "tmp/xyz" = .document := rfl

/-- A tdlib local file record: the local path field. -/
structure LocalFile where
  path : String
  deriving DecidableEq, Repr

/-- One entry of the sizes array of a messagePhoto. -/
structure PhotoSize where
  sizeType : String
  photo : LocalFile
  deriving DecidableEq, Repr

/-- Content variants of a delivery confirmation message, as probed by
TelegramHelper.extract_media_path (messagePhoto, messageVideo,
messageAnimation, messageDocument, messageAudio, anything else). -/
inductive TgContent where
  | photo (sizes : List PhotoSize)
  | video (f : LocalFile)
  | animation (f : LocalFile)
  | document (f : LocalFile)
  | audio (f : LocalFile)
  | other
  deriving DecidableEq, Repr

/-- TelegramHelper.extract_media_path (src/telegram/utils.py lines 27-60):
for a photo, the loop keeps the local record of the last size entry whose
type is the letter i; the extracted path is returned only when a local
record was found and its path is nonempty. -/
def extract_media_path (content : TgContent) : Option String :=
  let localFound : Option LocalFile :=
    match content with
    | .photo sizes =>
      sizes.foldl (fun acc ps => if ps.sizeType = "i" then some ps.photo else acc) none
    | .video f => some f
    | .animation f => some f
    | .document f => some f
    | .audio f => some f
    | .other => none
  match localFound with
  | some f => if f.path.length > 0 then some f.path else none
  | none => none

/-- Statistics storage: a redis hash keyed by (key, hash field), holding
float counters, modelled as rationals. -/
def Store : Type := String → String → Option Rat

/-- StatCollector._get_val_if_exists (src/stats.py lines 48-51). -/
def get_val_if_exists (store : Store) (key hkey : String) : Rat :=
  match store key hkey with
  | none => 0
  | some v => v

/-- The totals shape returned by the statistics queries: a per media type
count and size, plus the grand total count and size. -/
structure Totals where
  image : Rat
  video : Rat
  animation : Rat
  document : Rat
  audio : Rat
  imageSize : Rat
  videoSize : Rat
  animationSize : Rat
  documentSize : Rat
  audioSize : Rat
  total : Rat
  totalSize : Rat
  deriving DecidableEq, Repr

/-- The all zero totals entry. -/
def zeroTotals : Totals :=
  { image := 0, video := 0, animation := 0, document := 0, audio := 0,
    imageSize := 0, videoSize := 0, animationSize := 0, documentSize := 0, audioSize := 0,
    total := 0, totalSize := 0 }

/-- StatCollector._get_totals_generic (src/stats.py lines 26-46): read the
count and size for each TelegramMediaType in enum order, accumulating the
grand totals in the same order. -/
def get_totals_generic (store : Store) (cur_key cur_key_size cur_hkey_pre : String) : Totals :=
  let vImage := get_val_if_exists store cur_key (cur_hkey_pre ++ "image")
  let sImage := get_val_if_exists store cur_key_size (cur_hkey_pre ++ "image")
  let vVideo := get_val_if_exists store cur_key (cur_hkey_pre ++ "video")
  let sVideo := get_val_if_exists store cur_key_size (cur_hkey_pre ++ "video")
  let vAnimation := get_val_if_exists store cur_key (cur_hkey_pre ++ "animation")
  let sAnimation := get_val_if_exists store cur_key_size (cur_hkey_pre ++ "animation")
  let vDocument := get_val_if_exists store cur_key (cur_hkey_pre ++ "document")
  let sDocument := get_val_if_exists store cur_key_size (cur_hkey_pre ++ "document")
  let vAudio := get_val_if_exists store cur_key (cur_hkey_pre ++ "audio")
  let sAudio := get_val_if_exists store cur_key_size (cur_hkey_pre ++ "audio")
  { image := vImage, video := vVideo, animation := vAnimation,
    document := vDocument, audio := vAudio,
    imageSize := sImage, videoSize := sVideo, animationSize := sAnimation,
    documentSize := sDocument, audioSize := sAudio,
    total := vImage + vVideo + vAnimation + vDocument + vAudio,
    totalSize := sImage + sVideo + sAnimation + sDocument + sAudio }

/-- StatCollector._get_totals (src/stats.py lines 20-24). -/
def get_totals (store : Store) (db_pre db_suffix : String) : Totals :=
  get_totals_generic store (db_pre ++ "_total_" ++ db_suffix)
    (db_pre ++ "_total_size_" ++ db_suffix) ""

/-- StatCollector._get_day_stats (src/stats.py lines 14-18). -/
def get_day_stats (store : Store) (db_pre day db_suffix : String) : Totals :=
  get_totals_generic store (db_pre ++ "_date_" ++ db_suffix)
    (db_pre ++ "_date_size_" ++ db_suffix) (day ++ "_")

/-- Rendering of a model date (an integer day number) as the redis hash key
fragment, standing in for str(datetime.date). -/
def dayStr (d : Int) : String := toString d

/-- The while loop of StatCollector._get_week_stats (src/stats.py lines
58-62): iterate from start while start is at most today, appending one
(day string, day stats) entry per day.  The fuel argument bounds the
iteration count so that the recursion is structural; it is instantiated
with the exact number of remaining days. -/
def week_loop (store : Store) (db_pre db_suffix : String) (today : Int) :
    Nat → Int → List (String × Totals)
  | 0, _ => []
  | fuel + 1, start =>
    if start ≤ today then
      (dayStr start, get_day_stats store db_pre (dayStr start) db_suffix) ::
        week_loop store db_pre db_suffix today fuel (start + 1)
    else []

/-- StatCollector._get_week_stats (src/stats.py lines 53-64): entries from
today minus six days up to today. -/
def get_week_stats (store : Store) (db_pre : String) (today : Int) (db_suffix : String) :
    List (String × Totals) :=
  week_loop store db_pre db_suffix today (today + 1 - (today - 6)).toNat (today - 6)

/-- The increment_hash_value helper inside StatCollector._record_media_stats
(src/stats.py lines 68-71): initialize the field to zero when absent, then
hincrbyfloat. -/
def increment_hash_value (store : Store) (key hkey : String) (v : Rat) : Store :=
  fun k h =>
    if k = key ∧ h = hkey then some ((store key hkey).getD 0 + v) else store k h

/-- Python round(x, 3) used for the megabyte size (src/stats.py line 73).
Rounding of an exact rational to three decimals; Python rounds half to even
while Mathlib round rounds half up, which differs only at exact half
thousandths and is irrelevant to the claims treated here. -/
def roundTo3 (q : Rat) : Rat := (round (q * 1000) : Int) / 1000

/-- StatCollector._record_media_stats (src/stats.py lines 66-97): read the
file size with os.path.getsize, which raises FileNotFoundError when the path
does not resolve to a file; then increment the four counters (lifetime
count, lifetime size, day count, day size) for the detected media type. -/
def record_media_stats (fs : FS) (store : Store) (db_pre db_suffix today file_path : String) :
    Except PyErr Store :=
  match fs file_path with
  | none => .error .fileNotFound
  | some bytes =>
    let file_size := roundTo3 ((bytes.length : Rat) / 1000000)
    let media_type := (determine_media_type file_path).lowerName
    let s1 := increment_hash_value store (db_pre ++ "_total_" ++ db_suffix) media_type 1
    let s2 := increment_hash_value s1 (db_pre ++ "_total_size_" ++ db_suffix) media_type file_size
    let s3 := increment_hash_value s2 (db_pre ++ "_date_" ++ db_suffix)
      (today ++ "_" ++ media_type) 1
    let s4 := increment_hash_value s3 (db_pre ++ "_date_size_" ++ db_suffix)
      (today ++ "_" ++ media_type) file_size
    .ok s4

/-- Model of os.remove (src/reddit/subreddit_browser.py line 130). -/
def os_remove (fs : FS) (p : String) : Except PyErr FS :=
  match fs p with
  | none => .error .fileNotFound
  | some _ => .ok (fun q => if q = p then none else fs q)

/-- SubredditBrowser._process_message_sent (src/reddit/subreddit_browser.py
lines 125-131), the delivery correlator upcall: extract the local media path
from the confirmation message; when present, record the delivered statistic
(which reads the file size first) and delete the file.  The result carries
the file system, the statistics store and the exception, if one escaped; an
exception from the size lookup propagates before any counter was touched. -/
def process_message_sent (fs : FS) (store : Store) (db_pre today : String)
    (content : TgContent) : FS × Store × Option PyErr :=
  match extract_media_path content with
  | none => (fs, store, none)
  | some path =>
    match record_media_stats fs store db_pre "delivered" today path with
    | .error e => (fs, store, some e)
    | .ok store1 =>
      match os_remove fs path with
      | .error e => (fs, store1, some e)
      | .ok fs1 => (fs1, store1, none)

/-- A feed submission, the fields read by the browse loop. -/
structure Submission where
  id : String
  url : String
  title : String
  media : Option RedditVideo
  deriving DecidableEq, Repr

/-- Observable actions of one POLL cycle, in the order they are performed
for a submission: the media download, the two redis marking commands, the
send dispatch to the messaging transport, and the sent statistic. -/
inductive Ev where
  | download (sid : String)
  | mark (sid : String)
  | dispatch (sid : String)
  | recordSent (sid : String)
  deriving DecidableEq, Repr

/-- Submission id an event is about. -/
def Ev.sid : Ev → String
  | .download sid => sid
  | .mark sid => sid
  | .dispatch sid => sid
  | .recordSent sid => sid

/-- State threaded through a browse cycle: the retention store namespace and
the local temporary files. -/
structure BrowseState where
  store : RState
  fs : FS

/-- SubredditBrowser._extract_media in full (lines 70-122): resolution
followed by the download when a provider matched; returns the downloaded
file path, or none for an unresolved submission. -/
def extract_media (sniff : List Nat → Option String) (net : String → Option (List Nat))
    (tmp_dir : String) (fs : FS) (sub : Submission) : Except PyErr (FS × Option String) :=
  match resolve_media sub.media tmp_dir sub.url with
  | .error e => .error e
  | .ok none => .ok (fs, none)
  | .ok (some (download_url, file_path, default_ext)) =>
    let r := download_media sniff net fs download_url file_path default_ext
    .ok (r.1, some r.2)

/-- Body of the per submission loop of SubredditBrowser._browse_subreddit
(lines 34-48): skip when the posted set already holds the id; otherwise
extract (resolve and download), mark posted (sadd then hset at the current
time), dispatch the send, and record the sent statistic.  The event list
records the actions in source order. -/
def process_submission (sniff : List Nat → Option String) (net : String → Option (List Nat))
    (tmp_dir : String) (now : Int) (bs : BrowseState) (sub : Submission) :
    Except PyErr (BrowseState × List Ev) :=
  if sub.id ∈ bs.store.posted then .ok (bs, [])
  else
    match extract_media sniff net tmp_dir bs.fs sub with
    | .error e => .error e
    | .ok (fs1, none) => .ok ({ bs with fs := fs1 }, [])
    | .ok (fs1, some _file_path) =>
      let store1 := mark_posted bs.store sub.id now
      .ok ({ store := store1, fs := fs1 },
        [.download sub.id, .mark sub.id, .dispatch sub.id, .recordSent sub.id])

/-- Iteration over the fetched submissions.  An exception stops the loop
(only reddit fetch errors are caught by the source, not per submission
errors); the events observed before the exception are kept. -/
def browse_iter (sniff : List Nat → Option String) (net : String → Option (List Nat))
    (tmp_dir : String) (now : Int) :
    BrowseState → List Submission → BrowseState × List Ev × Option PyErr
  | bs, [] => (bs, [], none)
  | bs, sub :: rest =>
    match process_submission sniff net tmp_dir now bs sub with
    | .error e => (bs, [], some e)
    | .ok (bs1, evs) =>
      let r := browse_iter sniff net tmp_dir now bs1 rest
      (r.1, evs ++ r.2.1, r.2.2)

/-- One POLL phase of SubredditBrowser._browse_subreddit (lines 27-52): run
the retention sweep, then iterate over the fetched submissions.  The fetch
itself is abstracted as the given submission list (a reddit server error is
caught by the source and amounts to the empty list). -/
def poll_cycle (sniff : List Nat → Option String) (net : String → Option (List Nat))
    (tmp_dir : String) (now cleanup_delay : Int) (bs : BrowseState)
    (subs : List Submission) : BrowseState × List Ev × Option PyErr :=
  match sweep now cleanup_delay bs.store with
  | .error e => (bs, [], some e)
  | .ok store1 => browse_iter sniff net tmp_dir now { bs with store := store1 } subs

/-- Projection used to state concrete facts about a sweep result: membership
of an id in the posted set afterwards (false when the sweep raised). -/
def postedAfterSweep (r : Except PyErr RState) (sid : String) : Bool :=
  match r with
  | .ok st => st.posted.contains sid
  | .error _ => false

/-- Projection used to state concrete facts about a sweep result: the
post_time entry of an id afterwards (none when the sweep raised). -/
def timeAfterSweep (r : Except PyErr RState) (sid : String) : Option Int :=
  match r with
  | .ok st => st.postTime sid
  | .error _ => none

/-- Projection for concrete facts about a processed submission: whether an
id is in the posted set afterwards. -/
def psPosted (r : Except PyErr (BrowseState × List Ev)) (sid : String) : Bool :=
  match r with
  | .ok (bs, _) => bs.store.posted.contains sid
  | .error _ => false

/-- Projection for concrete facts about a processed submission: the file at
a path afterwards. -/
def psFile (r : Except PyErr (BrowseState × List Ev)) (p : String) : Option (List Nat) :=
  match r with
  | .ok (bs, _) => bs.fs p
  | .error _ => none

/-- The empty retention state. -/
def rs0 : RState := { posted := [], postTime := fun _ => none }

/-- A retention state tracking exactly the id a, posted at time 0. -/
def rsA : RState :=
  { posted := ["a"], postTime := fun k => if k = "a" then some 0 else none }

/-- The empty file system. -/
def fsEmpty : FS := fun _ => none

/-- The empty statistics store. -/
def storeEmpty : Store := fun _ _ => none

/-- A stub network on which every fetch fails. -/
def net0 : String → Option (List Nat) := fun _ => none

/-- A stub content sniffer that never recognizes a type. -/
def sniff0 : List Nat → Option String := fun _ => none

/-- A submission with id a and a well formed imgur jpg url. -/
def subA : Submission :=
  { id := "a", url := "https://i.imgur.com/p.jpg", title := "t", media := none }

/-- A submission with id b and a well formed imgur jpg url. -/
def subB : Submission :=
  { id := "b", url := "https://i.imgur.com/q.jpg", title := "t", media := none }

/-- A submission with id abc and a well formed imgur gif url. -/
def subEx : Submission :=
  { id := "abc", url := "https://i.imgur.com/xyz.gif", title := "title", media := none }

/-- Browse state with the empty retention store and no files. -/
def bs0 : BrowseState := { store := rs0, fs := fsEmpty }

/-- Browse state tracking exactly the id a, posted at time 0. -/
def bsA : BrowseState := { store := rsA, fs := fsEmpty }

lemma collect_to_del_spec {pt : String → Option Int} {now d : Int} :
    ∀ {l td : List String}, collect_to_del pt now d l = .ok td →
      td.Sublist l ∧ ∀ sid, sid ∈ td ↔ sid ∈ l ∧ ∃ t, pt sid = some t ∧ now - t > d := by
  intro l
  induction l with
  | nil =>
    intro td h
    simp only [collect_to_del, Except.ok.injEq] at h
    subst h
    simp
  | cons a rest ih =>
    intro td h
    simp only [collect_to_del] at h
    cases hpt : pt a with
    | none => simp [hpt] at h
    | some t =>
      simp only [hpt] at h
      cases hrec : collect_to_del pt now d rest with
      | error e => simp [hrec] at h
      | ok td2 =>
        simp only [hrec, Except.ok.injEq] at h
        obtain ⟨hsub, hmem⟩ := ih hrec
        by_cases hc : now - t > d
        · simp only [hc, if_pos] at h
          subst h
          constructor
          · exact hsub.cons₂ a
          · intro sid
            constructor
            · intro hs
              rcases List.mem_cons.mp hs with h1 | h1
              · subst h1
                exact ⟨List.mem_cons_self _ _, t, hpt, hc⟩
              · obtain ⟨h2, h3⟩ := (hmem sid).mp h1
                exact ⟨List.mem_cons_of_mem _ h2, h3⟩
            · intro ⟨h1, h2⟩
              rcases List.mem_cons.mp h1 with h3 | h3
              · subst h3
                exact List.mem_cons_self _ _
              · exact List.mem_cons_of_mem _ ((hmem sid).mpr ⟨h3, h2⟩)
        · simp only [hc, if_neg, if_false] at h
          subst h
          constructor
          · exact hsub.cons a
          · intro sid
            constructor
            · intro hs
              obtain ⟨h2, h3⟩ := (hmem sid).mp hs
              exact ⟨List.mem_cons_of_mem _ h2, h3⟩
            · intro ⟨h1, h2⟩
              rcases List.mem_cons.mp h1 with h3 | h3
              · subst h3
                obtain ⟨t2, ht2, hc2⟩ := h2
                rw [hpt] at ht2
                cases ht2
                exact absurd hc2 hc
              · exact (hmem sid).mpr ⟨h3, h2⟩

lemma collect_to_del_isOk {pt : String → Option Int} {now d : Int} :
    ∀ {l : List String}, (∀ sid ∈ l, (pt sid).isSome) →
      ∃ td, collect_to_del pt now d l = .ok td := by
  intro l
  induction l with
  | nil => exact fun _ => ⟨[], rfl⟩
  | cons a rest ih =>
    intro h
    obtain ⟨td, htd⟩ := ih fun sid hs => h sid (List.mem_cons_of_mem _ hs)
    have ha := h a (List.mem_cons_self _ _)
    cases hpt : pt a with
    | none => rw [hpt] at ha; simp at ha
    | some t =>
      exact ⟨if now - t > d then a :: td else td, by simp [collect_to_del, hpt, htd]⟩

lemma exec_sweep_cmds_postTime :
    ∀ (td : List String) (s : RState) (sid : String),
      (execCmds s (sweep_cmds td)).postTime sid =
        if sid ∈ td then none else s.postTime sid := by
  intro td
  induction td with
  | nil => intro s sid; simp [sweep_cmds, execCmds]
  | cons a td2 ih =>
    intro s sid
    have hstep : execCmds s (sweep_cmds (a :: td2)) =
        execCmds (execCmd (execCmd s (.srem a)) (.hdel a)) (sweep_cmds td2) := by
      simp [sweep_cmds, execCmds, List.flatMap_cons]
    rw [hstep, ih]
    by_cases h1 : sid ∈ td2
    · simp [h1]
    · by_cases h2 : sid = a
      · subst h2
        simp [h1, execCmd]
      · simp [h1, h2, execCmd, List.mem_cons]

lemma exec_sweep_cmds_posted :
    ∀ (td : List String) (s : RState), s.posted.Nodup →
      (execCmds s (sweep_cmds td)).posted.Nodup ∧
      ∀ sid, sid ∈ (execCmds s (sweep_cmds td)).posted ↔ sid ∈ s.posted ∧ sid ∉ td := by
  intro td
  induction td with
  | nil => intro s hnd; simp [sweep_cmds, execCmds, hnd]
  | cons a td2 ih =>
    intro s hnd
    have hstep : execCmds s (sweep_cmds (a :: td2)) =
        execCmds (execCmd (execCmd s (.srem a)) (.hdel a)) (sweep_cmds td2) := by
      simp [sweep_cmds, execCmds, List.flatMap_cons]
    have hposted : (execCmd (execCmd s (.srem a)) (.hdel a)).posted = s.posted.erase a := rfl
    have hnd2 : (execCmd (execCmd s (.srem a)) (.hdel a)).posted.Nodup := by
      rw [hposted]; exact List.Nodup.erase a hnd
    obtain ⟨ihnd, ihmem⟩ := ih _ hnd2
    rw [hstep]
    refine ⟨ihnd, fun sid => ?_⟩
    rw [ihmem sid, hposted, List.Nodup.mem_erase_iff hnd]
    constructor
    · intro ⟨⟨h1, h2⟩, h3⟩
      exact ⟨h2, by simp [List.mem_cons, h1, h3]⟩
    · intro ⟨h1, h2⟩
      simp only [List.mem_cons, not_or] at h2
      exact ⟨⟨h2.1, h1⟩, h2.2⟩

lemma sweep_isOk {now d : Int} {s : RState} (hinv : RInv s) :
    ∃ s1, sweep now d s = .ok s1 := by
  obtain ⟨td, htd⟩ := @collect_to_del_isOk s.postTime now d s.posted
    (fun sid hs => hinv sid hs)
  exact ⟨execCmds s (sweep_cmds td), by simp [sweep, htd]⟩

lemma sweep_spec {now d : Int} {s s1 : RState} (hnd : s.posted.Nodup)
    (h : sweep now d s = .ok s1) :
    s1.posted.Nodup ∧
    (∀ sid, sid ∈ s1.posted → sid ∈ s.posted ∧ s1.postTime sid = s.postTime sid) ∧
    (∀ sid t, sid ∈ s.posted → s.postTime sid = some t → now - t > d →
      sid ∉ s1.posted ∧ s1.postTime sid = none) ∧
    (∀ sid t, sid ∈ s.posted → s.postTime sid = some t → ¬(now - t > d) →
      sid ∈ s1.posted ∧ s1.postTime sid = some t) := by
  unfold sweep at h
  cases htd : collect_to_del s.postTime now d s.posted with
  | error e => rw [htd] at h; exact absurd h (by simp)
  | ok td =>
    rw [htd] at h
    simp only [Except.ok.injEq] at h
    subst h
    obtain ⟨_, hiff⟩ := collect_to_del_spec htd
    obtain ⟨hnd1, hmem⟩ := exec_sweep_cmds_posted td s hnd
    refine ⟨hnd1, ?_, ?_, ?_⟩
    · intro sid hs
      obtain ⟨h1, h2⟩ := (hmem sid).mp hs
      refine ⟨h1, ?_⟩
      rw [exec_sweep_cmds_postTime]
      simp [h2]
    · intro sid t hmem0 hpt hc
      have hin : sid ∈ td := (hiff sid).mpr ⟨hmem0, t, hpt, hc⟩
      constructor
      · intro hcon
        exact ((hmem sid).mp hcon).2 hin
      · rw [exec_sweep_cmds_postTime]
        simp [hin]
    · intro sid t hmem0 hpt hc
      have hout : sid ∉ td := by
        intro hin
        obtain ⟨_, t2, hpt2, hc2⟩ := (hiff sid).mp hin
        rw [hpt] at hpt2
        cases hpt2
        exact hc hc2
      constructor
      · exact (hmem sid).mpr ⟨hmem0, hout⟩
      · rw [exec_sweep_cmds_postTime]
        simp [hout, hpt]

lemma mark_posted_def (s : RState) (sid : String) (t : Int) :
    mark_posted s sid t =
      { posted := if sid ∈ s.posted then s.posted else sid :: s.posted,
        postTime := fun k => if k = sid then some t else s.postTime k } := rfl

lemma mem_mark_posted (s : RState) (sid : String) (t : Int) :
    sid ∈ (mark_posted s sid t).posted := by
  rw [mark_posted_def]
  by_cases h : sid ∈ s.posted <;> simp [h]

lemma mark_posted_mono {s : RState} {sid k : String} {t : Int} (h : k ∈ s.posted) :
    k ∈ (mark_posted s sid t).posted := by
  rw [mark_posted_def]
  by_cases h2 : sid ∈ s.posted <;> simp [h2, h]

lemma process_submission_skip {sniff : List Nat → Option String}
    {net : String → Option (List Nat)} {tmp_dir : String} {now : Int}
    {bs : BrowseState} {sub : Submission} (h : sub.id ∈ bs.store.posted) :
    process_submission sniff net tmp_dir now bs sub = .ok (bs, []) := by
  simp [process_submission, h]

lemma process_submission_props {sniff : List Nat → Option String}
    {net : String → Option (List Nat)} {tmp_dir : String} {now : Int}
    {bs bs1 : BrowseState} {sub : Submission} {evs : List Ev}
    (h : process_submission sniff net tmp_dir now bs sub = .ok (bs1, evs)) :
    (∀ k, k ∈ bs.store.posted → k ∈ bs1.store.posted) ∧
    (evs = [] ∨
      evs = [.download sub.id, .mark sub.id, .dispatch sub.id, .recordSent sub.id]) := by
  unfold process_submission at h
  by_cases hmem : sub.id ∈ bs.store.posted
  · simp only [hmem, if_pos, Except.ok.injEq, Prod.mk.injEq] at h
    obtain ⟨h1, h2⟩ := h
    subst h1
    subst h2
    exact ⟨fun k hk => hk, Or.inl rfl⟩
  · simp only [hmem, if_neg, if_false] at h
    cases hx : extract_media sniff net tmp_dir bs.fs sub with
    | error e => rw [hx] at h; exact absurd h (by simp)
    | ok r =>
      rw [hx] at h
      obtain ⟨fs1, p⟩ := r
      cases p with
      | none =>
        simp only [Except.ok.injEq, Prod.mk.injEq] at h
        obtain ⟨h1, h2⟩ := h
        subst h1
        subst h2
        exact ⟨fun k hk => hk, Or.inl rfl⟩
      | some fp =>
        simp only [Except.ok.injEq, Prod.mk.injEq] at h
        obtain ⟨h1, h2⟩ := h
        subst h1
        subst h2
        exact ⟨fun k hk => mark_posted_mono hk, Or.inr rfl⟩

lemma browse_iter_no_events_for {sniff : List Nat → Option String}
    {net : String → Option (List Nat)} {tmp_dir : String} {now : Int} {sid : String} :
    ∀ {subs : List Submission} {bs : BrowseState}, sid ∈ bs.store.posted →
      ∀ e ∈ (browse_iter sniff net tmp_dir now bs subs).2.1, e.sid ≠ sid := by
  intro subs
  induction subs with
  | nil => intro bs _ e he; simp [browse_iter] at he
  | cons sub rest ih =>
    intro bs hmem e he
    simp only [browse_iter] at he
    cases hps : process_submission sniff net tmp_dir now bs sub with
    | error e2 => rw [hps] at he; simp at he
    | ok r =>
      rw [hps] at he
      obtain ⟨bs1, evs⟩ := r
      simp only [List.mem_append] at he
      rcases he with he | he
      · by_cases hid : sub.id = sid
        · rw [process_submission_skip (hid ▸ hmem)] at hps
          simp only [Except.ok.injEq, Prod.mk.injEq] at hps
          rw [← hps.2] at he
          simp at he
        · obtain ⟨_, hblock⟩ := process_submission_props hps
          rcases hblock with h1 | h1
          · rw [h1] at he; simp at he
          · rw [h1] at he
            simp only [List.mem_cons] at he
            rcases he with h | h | h | h | h
            · subst h; simpa [Ev.sid] using hid
            · subst h; simpa [Ev.sid] using hid
            · subst h; simpa [Ev.sid] using hid
            · subst h; simpa [Ev.sid] using hid
            · simp at h
      · exact ih ((process_submission_props hps).1 sid hmem) e he

lemma browse_iter_dispatch_block {sniff : List Nat → Option String}
    {net : String → Option (List Nat)} {tmp_dir : String} {now : Int} {sid : String} :
    ∀ {subs : List Submission} {bs : BrowseState},
      Ev.dispatch sid ∈ (browse_iter sniff net tmp_dir now bs subs).2.1 →
      ∃ l1 l2, (browse_iter sniff net tmp_dir now bs subs).2.1 =
        l1 ++ [Ev.download sid, Ev.mark sid, Ev.dispatch sid, Ev.recordSent sid] ++ l2 := by
  intro subs
  induction subs with
  | nil => intro bs h; simp [browse_iter] at h
  | cons sub rest ih =>
    intro bs h
    simp only [browse_iter] at h ⊢
    revert h
    cases hps : process_submission sniff net tmp_dir now bs sub with
    | error e2 => intro h; simp at h
    | ok r =>
      obtain ⟨bs1, evs⟩ := r
      intro h
      simp only [List.mem_append] at h
      obtain ⟨_, hblock⟩ := process_submission_props hps
      rcases h with h | h
      · rcases hblock with h1 | h1
        · rw [h1] at h; simp at h
        · rw [h1] at h
          simp only [List.mem_cons] at h
          have hid : sub.id = sid := by
            rcases h with h | h | h | h | h
            · cases h
            · cases h
            · cases h; rfl
            · cases h
            · simp at h
          subst hid
          rw [h1]
          exact ⟨[], (browse_iter sniff net tmp_dir now bs1 rest).2.1, rfl⟩
      · obtain ⟨l1, l2, hl⟩ := ih h
        refine ⟨evs ++ l1, l2, ?_⟩
        show evs ++ (browse_iter sniff net tmp_dir now bs1 rest).2.1 =
          evs ++ l1 ++ [Ev.download sid, Ev.mark sid, Ev.dispatch sid, Ev.recordSent sid] ++ l2
        rw [hl]
        simp [List.append_assoc]

lemma week_loop_eq (store : Store) (db_pre db_suffix : String) (today : Int) :
    ∀ (n : Nat) (start : Int), start + (n : Int) = today + 1 →
      week_loop store db_pre db_suffix today n start =
        (List.range n).map
          (fun i : Nat => (dayStr (start + (i : Int)),
            get_day_stats store db_pre (dayStr (start + (i : Int))) db_suffix)) := by
  intro n
  induction n with
  | zero => intro start h; simp [week_loop]
  | succ n ih =>
    intro start h
    have hle : start ≤ today := by
      have : start + ((n : Int) + 1) = today + 1 := by push_cast at h ⊢; omega
      omega
    have hnext : (start + 1) + (n : Int) = today + 1 := by push_cast at h ⊢; omega
    rw [week_loop, if_pos hle, ih (start + 1) hnext, List.range_succ_eq_map, List.map_cons,
      List.map_map]
    have hz : start + ((0 : Nat) : Int) = start := by push_cast; ring
    rw [hz]
    refine congrArg _ ?_
    refine List.map_congr_left ?_
    intro i _
    simp only [Function.comp]
    have hs : (start + 1) + (i : Int) = start + ((Nat.succ i : Nat) : Int) := by
      push_cast; ring
    rw [hs]

lemma get_week_stats_eq (store : Store) (db_pre : String) (today : Int) (db_suffix : String) :
    get_week_stats store db_pre today db_suffix =
      (List.range 7).map
        (fun i : Nat => (dayStr (today - 6 + (i : Int)),
          get_day_stats store db_pre (dayStr (today - 6 + (i : Int))) db_suffix)) := by
  unfold get_week_stats
  have h7 : (today + 1 - (today - 6)) = (7 : Int) := by ring
  rw [h7]
  exact week_loop_eq store db_pre db_suffix today 7 (today - 6) (by push_cast; ring)

@[ext] lemma RState.ext {s1 s2 : RState} (h1 : s1.posted = s2.posted)
    (h2 : ∀ k, s1.postTime k = s2.postTime k) : s1 = s2 := by
  cases s1 with
  | mk p1 t1 =>
    cases s2 with
    | mk p2 t2 =>
      simp only at h1 h2
      subst h1
      rw [funext h2]

/-- C10: for every statistics store and key choice, the grand total of a
totals shaped result equals the sum of the five per media type counts and
the grand total size equals the sum of the five per media type sizes, over
exactly image, video, animation, document, audio; the lifetime query, the
day query (hence the today query) and every entry of the week query are
instances of get_totals_generic, as the remaining conjuncts record. -/
theorem c10_totals_sum :
    (∀ (store : Store) (cur_key cur_key_size cur_hkey_pre : String),
      (get_totals_generic store cur_key cur_key_size cur_hkey_pre).total =
          (get_totals_generic store cur_key cur_key_size cur_hkey_pre).image +
          (get_totals_generic store cur_key cur_key_size cur_hkey_pre).video +
          (get_totals_generic store cur_key cur_key_size cur_hkey_pre).animation +
          (get_totals_generic store cur_key cur_key_size cur_hkey_pre).document +
          (get_totals_generic store cur_key cur_key_size cur_hkey_pre).audio ∧
      (get_totals_generic store cur_key cur_key_size cur_hkey_pre).totalSize =
          (get_totals_generic store cur_key cur_key_size cur_hkey_pre).imageSize +
          (get_totals_generic store cur_key cur_key_size cur_hkey_pre).videoSize +
          (get_totals_generic store cur_key cur_key_size cur_hkey_pre).animationSize +
          (get_totals_generic store cur_key cur_key_size cur_hkey_pre).documentSize +
          (get_totals_generic store cur_key cur_key_size cur_hkey_pre).audioSize) ∧
    (∀ (store : Store) (db_pre db_suffix : String),
      get_totals store db_pre db_suffix =
        get_totals_generic store (db_pre ++ "_total_" ++ db_suffix)
          (db_pre ++ "_total_size_" ++ db_suffix) "") ∧
    (∀ (store : Store) (db_pre day db_suffix : String),
      get_day_stats store db_pre day db_suffix =
        get_totals_generic store (db_pre ++ "_date_" ++ db_suffix)
          (db_pre ++ "_date_size_" ++ db_suffix) (day ++ "_")) ∧
    (∀ (store : Store) (db_pre : String) (today : Int) (db_suffix : String),
      get_week_stats store db_pre today db_suffix =
        (List.range 7).map
          (fun i : Nat => (dayStr (today - 6 + (i : Int)),
            get_day_stats store db_pre (dayStr (today - 6 + (i : Int))) db_suffix))) := by
  refine ⟨fun store k ks p => ⟨rfl, rfl⟩, fun store a b => rfl, fun store a b c => rfl,
    fun store db_pre today db_suffix => get_week_stats_eq store db_pre today db_suffix⟩

/-- C8: the week query always returns exactly 7 entries, listed oldest
first from today minus six days up to today, and a day with no recorded
activity for any of the five media types yields the all zero totals entry. -/
theorem c8_week_shape :
    ∀ (store : Store) (db_pre : String) (today : Int) (db_suffix : String),
      (get_week_stats store db_pre today db_suffix).length = 7 ∧
      get_week_stats store db_pre today db_suffix =
        (List.range 7).map
          (fun i : Nat => (dayStr (today - 6 + (i : Int)),
            get_day_stats store db_pre (dayStr (today - 6 + (i : Int))) db_suffix)) ∧
      (∀ day : String,
        (∀ mt : MediaType,
          store (db_pre ++ "_date_" ++ db_suffix) ((day ++ "_") ++ mt.lowerName) = none ∧
          store (db_pre ++ "_date_size_" ++ db_suffix) ((day ++ "_") ++ mt.lowerName) = none) →
        get_day_stats store db_pre day db_suffix = zeroTotals) := by
  intro store db_pre today db_suffix
  refine ⟨?_, get_week_stats_eq store db_pre today db_suffix, ?_⟩
  · rw [get_week_stats_eq]
    simp
  · intro day h
    have hi := h .image
    have hv := h .video
    have han := h .animation
    have hd := h .document
    have hau := h .audio
    simp only [MediaType.lowerName] at hi hv han hd hau
    simp only [get_day_stats, get_totals_generic, get_val_if_exists,
      hi.1, hi.2, hv.1, hv.2, han.1, han.2, hd.1, hd.2, hau.1, hau.2]
    simp [zeroTotals]

/-- C8 witness: at the empty store the week query has exactly 7 entries and
an inactive day yields the zero totals. -/
theorem c8_week_shape_witness :
    (get_week_stats storeEmpty "p" 6 "sent").length = 7 ∧
    get_day_stats storeEmpty "p" "x" "sent" = zeroTotals := by
  have h := c8_week_shape storeEmpty "p" 6 "sent"
  exact ⟨h.1, h.2.2 "x" (fun mt => ⟨rfl, rfl⟩)⟩

/-- C3 counterexample: with cleanup_delay 5 and now 5, the id a recorded at
posted_at 0 satisfies posted_at less-or-equal now minus cleanup_delay, yet
the sweep keeps it in both the posted set and the post_time map, because
the code removes only when now minus posted_at is strictly greater than
cleanup_delay. -/
theorem c3_counterexample_boundary_kept :
    (0 : Int) ≤ 5 - 5 ∧
    postedAfterSweep (sweep 5 5 rsA) "a" = true ∧
    timeAfterSweep (sweep 5 5 rsA) "a" = some 0 := by
  refine ⟨by norm_num, rfl, rfl⟩

/-- C3 amended: after sweep(cleanup_delay, now) on a duplicate free state,
every tracked id with now minus posted_at strictly greater than
cleanup_delay is absent from both the posted set and the post_time map, and
every tracked id with now minus posted_at at most cleanup_delay (including
the boundary posted_at equal to now minus cleanup_delay) remains present in
both with its time unchanged. -/
theorem c3_sweep_strict (now d : Int) (s s1 : RState) (hnd : s.posted.Nodup)
    (h : sweep now d s = .ok s1) :
    ∀ sid t, sid ∈ s.posted → s.postTime sid = some t →
      (now - t > d → sid ∉ s1.posted ∧ s1.postTime sid = none) ∧
      (¬(now - t > d) → sid ∈ s1.posted ∧ s1.postTime sid = some t) := by
  obtain ⟨_, _, hgone, hkept⟩ := sweep_spec hnd h
  intro sid t hm hp
  exact ⟨fun hgt => hgone sid t hm hp hgt, fun hle => hkept sid t hm hp hle⟩

/-- C3 witness: a concrete expired entry is removed from both structures by
the sweep. -/
theorem c3_sweep_strict_witness :
    "a" ∉ (execCmds rsA (sweep_cmds ["a"])).posted ∧
    (execCmds rsA (sweep_cmds ["a"])).postTime "a" = none := by
  have h := c3_sweep_strict 10 5 rsA (execCmds rsA (sweep_cmds ["a"]))
    (by simp [rsA]) rfl "a" 0 (by simp [rsA]) rfl
  exact h.1 (by norm_num)

/-- C4 counterexample: mark_posted consists of two successive redis
commands, sadd then hset; after executing only the first on a fresh id, the
id is in the posted set but has no post_time entry, so an intermediate
state in which the id is in exactly one of the two structures does exist. -/
theorem c4_counterexample_intermediate_state :
    mark_posted_cmds "a" 0 = [RCmd.sadd "a", RCmd.hset "a" 0] ∧
    "a" ∈ (execCmds rs0 ((mark_posted_cmds "a" 0).take 1)).posted ∧
    (execCmds rs0 ((mark_posted_cmds "a" 0).take 1)).postTime "a" = none := by
  refine ⟨rfl, ?_, rfl⟩
  simp [execCmds, execCmd, mark_posted_cmds, rs0]

/-- C4 amended: mark_posted and sweep preserve the invariant that every id
in the posted set has a post_time entry, as whole operations; mark_posted
is idempotent; and the sweep removal, which issues srem before hdel per id,
preserves the invariant at every intermediate command boundary.  What does
not hold is atomicity of mark_posted itself: it issues sadd before hset,
so a fresh id passes through an observable intermediate state inside the
set but outside the map (see the counterexample). -/
theorem c4_invariants :
    (∀ (s : RState) (sid : String) (t : Int), RInv s → RInv (mark_posted s sid t)) ∧
    (∀ (s : RState) (sid : String) (t : Int),
      mark_posted (mark_posted s sid t) sid t = mark_posted s sid t) ∧
    (∀ (now d : Int) (s s1 : RState), RInv s → s.posted.Nodup →
      sweep now d s = .ok s1 → RInv s1) ∧
    (∀ (td : List String) (s : RState) (c1 c2 : List RCmd), RInv s → s.posted.Nodup →
      td.Nodup → (∀ x ∈ td, x ∈ s.posted) → sweep_cmds td = c1 ++ c2 →
      RInv (execCmds s c1)) := by
  refine ⟨?_, ?_, ?_, ?_⟩
  · intro s sid t hinv k hk
    rw [mark_posted_def] at hk ⊢
    simp only at hk ⊢
    by_cases hks : k = sid
    · simp [hks]
    · simp only [hks, if_false]
      apply hinv
      by_cases hmem : sid ∈ s.posted
      · rw [if_pos hmem] at hk
        exact hk
      · rw [if_neg hmem] at hk
        rcases List.mem_cons.mp hk with h | h
        · exact absurd h hks
        · exact h
  · intro s sid t
    apply RState.ext
    · rw [mark_posted_def (mark_posted s sid t)]
      simp only
      rw [if_pos (mem_mark_posted s sid t)]
    · intro k
      rw [mark_posted_def (mark_posted s sid t), mark_posted_def s]
      simp only
      by_cases hks : k = sid
      · simp [hks]
      · simp [hks]
  · intro now d s s1 hinv hnd h k hk
    obtain ⟨_, hb, _, _⟩ := sweep_spec hnd h
    obtain ⟨hmem, heq⟩ := hb k hk
    rw [heq]
    exact hinv k hmem
  · intro td
    induction td with
    | nil =>
      intro s c1 c2 hinv hnd hndtd hsub h
      have hc1 : c1 = [] := by
        have := List.append_eq_nil.mp h.symm
        exact this.1
      rw [hc1]
      exact hinv
    | cons a td2 ih =>
      intro s c1 c2 hinv hnd hndtd hsub h
      have hcons : RCmd.srem a :: RCmd.hdel a :: sweep_cmds td2 = c1 ++ c2 := by
        rw [← h]
        simp [sweep_cmds, List.flatMap_cons]
      cases c1 with
      | nil => exact hinv
      | cons x c1' =>
        rw [List.cons_append] at hcons
        injection hcons with hx hrest
        subst hx
        cases c1' with
        | nil =>
          intro k hk
          have hk2 : k ∈ s.posted := (List.erase_sublist a s.posted).subset hk
          exact hinv k hk2
        | cons y c1'' =>
          rw [List.cons_append] at hrest
          injection hrest with hy hrest2
          subst hy
          have hstep : execCmds s (RCmd.srem a :: RCmd.hdel a :: c1'') =
              execCmds (execCmd (execCmd s (.srem a)) (.hdel a)) c1'' := by
            simp [execCmds]
          rw [hstep]
          obtain ⟨hna, hnd2⟩ := List.nodup_cons.mp hndtd
          refine ih (execCmd (execCmd s (.srem a)) (.hdel a)) c1'' c2 ?_ ?_ hnd2 ?_ hrest2
          · intro k hk
            have hk2 : k ≠ a ∧ k ∈ s.posted := (List.Nodup.mem_erase_iff hnd).mp hk
            have : (execCmd (execCmd s (.srem a)) (.hdel a)).postTime k =
                s.postTime k := by
              simp [execCmd, hk2.1]
            rw [this]
            exact hinv k hk2.2
          · exact List.Nodup.erase a hnd
          · intro x hx
            have hxa : x ≠ a := fun hxe => hna (hxe ▸ hx)
            have hxs : x ∈ s.posted := hsub x (List.mem_cons_of_mem _ hx)
            exact (List.Nodup.mem_erase_iff hnd).mpr ⟨hxa, hxs⟩

/-- C4 witness: invariant preservation and idempotence of mark_posted at a
concrete state, and invariant preservation along the command prefixes of a
concrete sweep removal. -/
theorem c4_invariants_witness :
    RInv (mark_posted rs0 "a" 0) ∧
    mark_posted (mark_posted rs0 "a" 0) "a" 0 = mark_posted rs0 "a" 0 ∧
    RInv (execCmds rsA ((sweep_cmds ["a"]).take 1)) := by
  refine ⟨c4_invariants.1 rs0 "a" 0 ?_, c4_invariants.2.1 rs0 "a" 0,
    c4_invariants.2.2.2 ["a"] rsA ((sweep_cmds ["a"]).take 1) ((sweep_cmds ["a"]).drop 1)
      ?_ ?_ ?_ ?_ ?_⟩
  · intro k hk
    simp [rs0] at hk
  · intro k hk
    simp [rsA] at hk
    subst hk
    rfl
  · simp [rsA]
  · simp
  · intro x hx
    simp at hx
    subst hx
    simp [rsA]
  · rw [List.take_append_drop]

/-- C2 counterexample: two malformed URLs that start with a supported host
but do not fit the provider shape make the resolver raise IndexError (the
empty re.findall result is indexed with [0]) instead of returning None: an
i.imgur.com URL ending in gif without a slash-id-dot-gif part, and an
i.redd.it URL without a dot extension suffix. -/
theorem c2_counterexample_regex_raises :
    resolve_media none "tmp" "https://i.imgur.com/gif" = .error .indexError ∧
    resolve_media none "tmp" "https://i.redd.it/abc" = .error .indexError :=
  ⟨rfl, rfl⟩

/-- C2 amended: the resolver returns None without raising for every URL
matching no supported host, for imgur URLs failing all four suffix checks,
for v.redd.it URLs without gif style video metadata, and for gfycat URLs
not ending in gif; but when a host and suffix guard passes while the
branch regex fails to match, the [0] indexing of the empty findall result
raises IndexError (last two conjuncts). -/
theorem c2_unmatched_urls_resolve_none :
    ∀ (media : Option RedditVideo) (tmp_dir url : String),
    (str_startswith url "https://i.imgur.com" = false →
      str_startswith url "https://v.redd.it/" = false →
      str_startswith url "https://i.redd.it/" = false →
      str_startswith url "https://gfycat.com/" = false →
      resolve_media media tmp_dir url = .ok none) ∧
    (str_startswith url "https://i.imgur.com" = true →
      str_endswith url "gifv" = false → str_endswith url "gif" = false →
      str_endswith url "jpg" = false → str_endswith url "png" = false →
      resolve_media media tmp_dir url = .ok none) ∧
    (str_startswith url "https://i.imgur.com" = false →
      str_startswith url "https://v.redd.it/" = true → media = none →
      resolve_media media tmp_dir url = .ok none) ∧
    (∀ rv : RedditVideo, str_startswith url "https://i.imgur.com" = false →
      str_startswith url "https://v.redd.it/" = true → media = some rv →
      rv.is_gif = false → resolve_media media tmp_dir url = .ok none) ∧
    (str_startswith url "https://i.imgur.com" = false →
      str_startswith url "https://v.redd.it/" = false →
      str_startswith url "https://i.redd.it/" = false →
      str_startswith url "https://gfycat.com/" = true →
      str_endswith url "gif" = false →
      resolve_media media tmp_dir url = .ok none) ∧
    (str_startswith url "https://i.imgur.com" = true →
      str_endswith url "gifv" = false → str_endswith url "gif" = true →
      findall_cap1 "https://i.imgur.com/" ".gif" url = none →
      resolve_media media tmp_dir url = .error .indexError) ∧
    (str_startswith url "https://i.imgur.com" = false →
      str_startswith url "https://v.redd.it/" = false →
      str_startswith url "https://i.redd.it/" = true →
      findall_cap2 "https://i.redd.it/" url = none →
      resolve_media media tmp_dir url = .error .indexError) := by
  intro media tmp_dir url
  refine ⟨?_, ?_, ?_, ?_, ?_, ?_, ?_⟩
  · intro h1 h2 h3 h4
    simp [resolve_media, h1, h2, h3, h4]
  · intro h1 h2 h3 h4 h5
    simp [resolve_media, h1, h2, h3, h4, h5]
  · intro h1 h2 h3
    subst h3
    simp [resolve_media, h1, h2]
  · intro rv h1 h2 h3 h4
    subst h3
    simp [resolve_media, h1, h2, h4]
  · intro h1 h2 h3 h4 h5
    simp [resolve_media, h1, h2, h3, h4, h5]
  · intro h1 h2 h3 h4
    simp [resolve_media, h1, h2, h3, h4]
  · intro h1 h2 h3 h4
    simp [resolve_media, h1, h2, h3, h4]

/-- C2 witness: fully unmatched and suffixless imgur URLs resolve to None
without an exception. -/
theorem c2_unmatched_urls_resolve_none_witness :
    resolve_media none "tmp" "https://example.com/a.png" = .ok none ∧
    resolve_media none "tmp" "https://i.imgur.com/a.webm" = .ok none :=
  ⟨(c2_unmatched_urls_resolve_none none "tmp" "https://example.com/a.png").1 rfl rfl rfl rfl,
   (c2_unmatched_urls_resolve_none none "tmp" "https://i.imgur.com/a.webm").2.1
     rfl rfl rfl rfl rfl⟩

/-- C9 counterexample: for the i.redd.it URL ending in dot png the resolver
returns default extension jpg, not an extension inferred from the URL
suffix: the source sets default_ext to the literal jpg and discards the
regex captured suffix group. -/
theorem c9_counterexample_ext_always_jpg :
    resolve_media none "tmp" "https://i.redd.it/abc.png" =
      .ok (some ("https://i.redd.it/abc.png", "tmp/abc", "jpg")) ∧
    ("jpg" : String) ≠ "png" := by
  exact ⟨rfl, by decide⟩

/-- C9 amended: for every i.redd.it URL with an id-dot-wordsuffix shape the
resolver returns the submission URL itself as download URL and always the
default extension jpg, whatever the URL suffix is; i.redd.it URLs without
such a suffix raise IndexError (covered under C2). -/
theorem c9_iredd_resolution :
    ∀ (media : Option RedditVideo) (tmp_dir url media_id : String),
      str_startswith url "https://i.imgur.com" = false →
      str_startswith url "https://v.redd.it/" = false →
      str_startswith url "https://i.redd.it/" = true →
      findall_cap2 "https://i.redd.it/" url = some media_id →
      resolve_media media tmp_dir url = .ok (some (url, tmp_dir ++ "/" ++ media_id, "jpg")) := by
  intro media tmp_dir url media_id h1 h2 h3 h4
  simp [resolve_media, h1, h2, h3, h4]

/-- C9 witness: the amended statement at the concrete png suffixed URL. -/
theorem c9_iredd_resolution_witness :
    resolve_media none "tmp" "https://i.redd.it/xy.png" =
      .ok (some ("https://i.redd.it/xy.png", "tmp/xy", "jpg")) :=
  c9_iredd_resolution none "tmp" "https://i.redd.it/xy.png" "xy" rfl rfl rfl rfl

/-- C5 counterexample: a delivery confirmation carrying a nonempty local
path whose file was already deleted makes the correlator raise
FileNotFoundError out of the file size lookup inside the delivered
statistics recording, instead of no-opping; no statistic is recorded (the
store component is returned unchanged). -/
theorem c5_counterexample_orphan_raises :
    extract_media_path (TgContent.video { path := "tmp/f.mp4" }) = some "tmp/f.mp4" ∧
    process_message_sent fsEmpty storeEmpty "p" "7"
      (TgContent.video { path := "tmp/f.mp4" }) =
      (fsEmpty, storeEmpty, some PyErr.fileNotFound) :=
  ⟨rfl, rfl⟩

/-- C5 amended: the correlator no-ops, without exception and without
recording anything, exactly when path extraction yields no path (no media
content, or an empty path field); when a nonempty path is extracted but no
file exists there any more, the delivered statistics recording raises
FileNotFoundError from its file size lookup and the statistics store is
left untouched. -/
theorem c5_orphan_behavior :
    ∀ (fs : FS) (store : Store) (db_pre today : String) (content : TgContent),
    (extract_media_path content = none →
      process_message_sent fs store db_pre today content = (fs, store, none)) ∧
    (∀ path : String, extract_media_path content = some path → fs path = none →
      process_message_sent fs store db_pre today content =
        (fs, store, some PyErr.fileNotFound)) := by
  intro fs store db_pre today content
  constructor
  · intro h
    simp [process_message_sent, h]
  · intro path h1 h2
    simp [process_message_sent, h1, record_media_stats, h2]

/-- C5 witness: the amended statement at a non media confirmation and at a
confirmation referencing a missing file. -/
theorem c5_orphan_behavior_witness :
    process_message_sent fsEmpty storeEmpty "p" "7" TgContent.other =
      (fsEmpty, storeEmpty, none) ∧
    process_message_sent fsEmpty storeEmpty "p" "7" (TgContent.audio { path := "x.mp3" }) =
      (fsEmpty, storeEmpty, some PyErr.fileNotFound) :=
  ⟨(c5_orphan_behavior fsEmpty storeEmpty "p" "7" TgContent.other).1 rfl,
   (c5_orphan_behavior fsEmpty storeEmpty "p" "7" (TgContent.audio { path := "x.mp3" })).2
     "x.mp3" rfl rfl⟩

/-- C6 counterexample: with a network on which every fetch fails, wget
creates a zero byte file, sniffing is inconclusive, and download_media
still renames it and returns its path as a success; downstream, the browse
step for a resolvable submission then marks the post as posted and
dispatches it with the empty file, so the failure is not surfaced as a
resolution failure. -/
theorem c6_counterexample_failed_fetch_returned :
    (download_media sniff0 net0 fsEmpty "u" "tmp/x" "gif").2 = "tmp/x.gif" ∧
    (download_media sniff0 net0 fsEmpty "u" "tmp/x" "gif").1 "tmp/x.gif" = some [] ∧
    psPosted (process_submission sniff0 net0 "tmp" 100 bs0 subEx) "abc" = true ∧
    psFile (process_submission sniff0 net0 "tmp" 100 bs0 subEx) "tmp/xyz.gif" = some [] :=
  ⟨rfl, rfl, rfl, rfl⟩

/-- C6 amended: download always returns the path base dot sniffed
extension, or base dot default extension when sniffing is inconclusive,
and that path holds exactly the fetched bytes (so on a successful nonempty
fetch the returned file exists and is nonempty); but a failed or zero byte
fetch is not surfaced to the caller: the renamed zero byte file path is
returned as a success (last conjunct), and the caller proceeds to mark and
dispatch the post. -/
theorem c6_download_behavior :
    ∀ (sniff : List Nat → Option String) (net : String → Option (List Nat))
      (fs : FS) (url file_path default_ext : String),
    ((download_media sniff net fs url file_path default_ext).1
        (download_media sniff net fs url file_path default_ext).2 =
      some ((net url).getD [])) ∧
    (∀ k : String, sniff ((net url).getD []) = some k →
      (download_media sniff net fs url file_path default_ext).2 = file_path ++ "." ++ k) ∧
    (sniff ((net url).getD []) = none →
      (download_media sniff net fs url file_path default_ext).2 =
        file_path ++ "." ++ default_ext) ∧
    (net url = none →
      (download_media sniff net fs url file_path default_ext).1
        (download_media sniff net fs url file_path default_ext).2 = some []) := by
  intro sniff net fs url file_path default_ext
  refine ⟨?_, ?_, ?_, ?_⟩
  · cases hk : sniff ((net url).getD []) <;>
      simp [download_media, hk, os_rename, wget_fetch]
  · intro k hk
    simp [download_media, hk]
  · intro hk
    simp [download_media, hk]
  · intro hn
    cases hk : sniff ((net url).getD []) <;>
      simp [download_media, hk, os_rename, wget_fetch, hn]

/-- C6 witness: the amended statement at the failing stub network. -/
theorem c6_download_behavior_witness :
    (download_media sniff0 net0 fsEmpty "u" "b" "gif").2 = "b" ++ "." ++ "gif" ∧
    (download_media sniff0 net0 fsEmpty "u" "b" "gif").1
      (download_media sniff0 net0 fsEmpty "u" "b" "gif").2 = some [] :=
  ⟨(c6_download_behavior sniff0 net0 fsEmpty "u" "b" "gif").2.2.1 rfl,
   (c6_download_behavior sniff0 net0 fsEmpty "u" "b" "gif").2.2.2 rfl⟩

/-- C1: when the dedup membership check is true the per submission step is
a no-op (no download, no dispatch, no re-mark: state unchanged, no events);
and across a whole POLL cycle, an id that is tracked with a post time the
sweep does not expire (now minus posted_at not strictly above
cleanup_delay) generates no event at all, in particular it is neither
downloaded, nor dispatched, nor re-marked. -/
theorem c1_poll_skips_posted :
    (∀ (sniff : List Nat → Option String) (net : String → Option (List Nat))
      (tmp_dir : String) (now : Int) (bs : BrowseState) (sub : Submission),
      sub.id ∈ bs.store.posted →
      process_submission sniff net tmp_dir now bs sub = .ok (bs, [])) ∧
    (∀ (sniff : List Nat → Option String) (net : String → Option (List Nat))
      (tmp_dir : String) (now d : Int) (bs : BrowseState) (subs : List Submission)
      (sid : String) (t : Int),
      RInv bs.store → bs.store.posted.Nodup →
      sid ∈ bs.store.posted → bs.store.postTime sid = some t → ¬(now - t > d) →
      ∀ e ∈ (poll_cycle sniff net tmp_dir now d bs subs).2.1, e.sid ≠ sid) := by
  constructor
  · intro sniff net tmp_dir now bs sub h
    exact process_submission_skip h
  · intro sniff net tmp_dir now d bs subs sid t hinv hnd hmem hpt hle e he
    obtain ⟨s1, hsw⟩ := @sweep_isOk now d bs.store hinv
    have hkeep := ((sweep_spec hnd hsw).2.2.2 sid t hmem hpt hle).1
    unfold poll_cycle at he
    rw [hsw] at he
    exact @browse_iter_no_events_for sniff net tmp_dir now sid subs
      { bs with store := s1 } hkeep e he

/-- C1 witness: a concrete cycle over one already posted and one fresh
submission emits no event about the posted id, and the per submission step
on the posted id is a no-op. -/
theorem c1_poll_skips_posted_witness :
    process_submission sniff0 net0 "tmp" 5 bsA subA = .ok (bsA, []) ∧
    ∀ e ∈ (poll_cycle sniff0 net0 "tmp" 5 86400 bsA [subA, subB]).2.1, e.sid ≠ "a" := by
  constructor
  · exact c1_poll_skips_posted.1 sniff0 net0 "tmp" 5 bsA subA (by simp [bsA, rsA, subA])
  · exact c1_poll_skips_posted.2 sniff0 net0 "tmp" 5 86400 bsA [subA, subB] "a" 0
      (by intro k hk; simp [bsA, rsA] at hk; subst hk; rfl)
      (by simp [bsA, rsA]) (by simp [bsA, rsA]) rfl (by decide)

/-- C7: within one cycle, every dispatched id occurs inside the contiguous
event block download, mark, dispatch, recordSent for that id, so the
mark_posted recording happens strictly before the send dispatch and the
sent statistic is recorded after the dispatch. -/
theorem c7_mark_before_dispatch :
    ∀ (sniff : List Nat → Option String) (net : String → Option (List Nat))
      (tmp_dir : String) (now d : Int) (bs : BrowseState) (subs : List Submission)
      (sid : String),
      Ev.dispatch sid ∈ (poll_cycle sniff net tmp_dir now d bs subs).2.1 →
      ∃ l1 l2, (poll_cycle sniff net tmp_dir now d bs subs).2.1 =
        l1 ++ [Ev.download sid, Ev.mark sid, Ev.dispatch sid, Ev.recordSent sid] ++ l2 := by
  intro sniff net tmp_dir now d bs subs sid h
  unfold poll_cycle at h ⊢
  revert h
  cases hsw : sweep now d bs.store with
  | error e => intro h; simp at h
  | ok s1 =>
    intro h
    exact browse_iter_dispatch_block h

/-- C7 witness: a concrete cycle dispatching the fresh id b shows the
ordered block. -/
theorem c7_mark_before_dispatch_witness :
    ∃ l1 l2, (poll_cycle sniff0 net0 "tmp" 5 86400 bs0 [subB]).2.1 =
      l1 ++ [Ev.download "b", Ev.mark "b", Ev.dispatch "b", Ev.recordSent "b"] ++ l2 :=
  c7_mark_before_dispatch sniff0 net0 "tmp" 5 86400 bs0 [subB] "b" (by decide)
